import Mathlib

/-!
Verification development for the procedural-video generation suite
(abstract_flow.py, bouncing_ball.py, starfield.py, spiral_black_hole.py,
gradient_cycle.py).  The Python sources are shallowly embedded: floating
point photometric math is modelled over `ℚ`, machine integers over `ℕ`/`ℤ`
with explicit `% 2^w` where the source wraps, the ffmpeg child process and
its stdin pipe as explicit event traces, and `random` draws as oracle
arguments supplied to each step.
-/

/-! ## Time and frame scheduler

All five generators share the same streaming loop shape
(abstract_flow.py lines 89-108, bouncing_ball.py 94-128, starfield.py
98-135, spiral_black_hole.py 165-228):

    frames_written = 0
    logical_idx = 0
    while frames_written < target_frames:
        ... compute frame for t = logical_idx / fps ...
        repeat = min(dup, target_frames - frames_written)
        for _ in range(repeat): proc.stdin.write(frame.tobytes())
        frames_written += repeat
        logical_idx += 1

`loopSteps fuel dup rem k` returns the `(logical_idx, repeat)` pairs the
loop produces, with `rem = target_frames - frames_written` the frames still
owed and `fuel` an upper bound on the number of iterations observed.  When
`dup ≥ 1` every iteration writes at least one frame, so `fuel = target`
captures the whole loop; when `dup = 0` the source loop never makes
progress, which shows up here as every prefix of the infinite loop summing
to zero written frames. -/
def loopSteps : ℕ → ℕ → ℕ → ℕ → List (ℕ × ℕ)
  | 0, _, _, _ => []
  | fuel + 1, dup, rem, k =>
    if rem = 0 then []
    else (k, min dup rem) :: loopSteps fuel dup (rem - min dup rem) (k + 1)

/-- The repeat counts (duplication schedule) of one complete run. -/
def schedule (dup target : ℕ) : List ℕ :=
  (loopSteps target dup target 0).map (fun p => p.2)

/-- Source: `target_frames = int(math.ceil(total_seconds * fps))`
(abstract_flow.py line 43, bouncing_ball.py line 49, starfield.py line 60,
spiral_black_hole.py line 94). -/
def targetFrames (totalSeconds : ℚ) (fps : ℕ) : ℕ :=
  (⌈totalSeconds * (fps : ℚ)⌉).toNat

/-! ## Session validation and run traces

The generators raise `ValueError` before `subprocess.Popen` when the
resolution exceeds 3840x2160 or the total duration is not positive
(abstract_flow.py lines 38-42, bouncing_ball.py lines 44-48, starfield.py
lines 55-59).  A run is modelled as the `ValueError` raised, or the list of
observable pipe events: the child spawn followed by one `wrote` event per
frame pushed, each carrying its byte count.  Filename normalisation in the
sources only rewrites the output path string and is not modelled. -/

/-- The `ValueError`s raised by the validation code, by message. -/
inductive ValErr where
  /-- Message "Max resolution is 3840x2160." -/
  | maxResolution
  /-- Message "Length must be greater than zero." -/
  | nonPositiveLength
  /-- Message "must be >= min_val" raised by `ask_int` and `ask_float`. -/
  | belowMin (bound : ℤ)
  deriving DecidableEq

/-- Observable events on the encoder child process. -/
inductive RunEvent where
  /-- Event: `subprocess.Popen(cmd, stdin=subprocess.PIPE)` started the encoder. -/
  | spawned
  /-- Event: `proc.stdin.write(frame.tobytes())` pushed this many bytes. -/
  | wrote (nbytes : ℕ)
  deriving DecidableEq

/-- Whether a modelled run got past validation (no `ValueError`). -/
def runOk {α : Type} (r : Except ValErr α) : Bool :=
  match r with
  | Except.ok _ => true
  | Except.error _ => false

/-- Whether a modelled run spawned the encoder subprocess. -/
def spawnedEncoder (r : Except ValErr (List RunEvent)) : Bool :=
  match r with
  | Except.ok (RunEvent.spawned :: _) => true
  | _ => false

namespace AbstractFlow

/-- Function `run` of abstract_flow.py (lines 33-108), up to its write trace:
validation in source order, then the spawn, then the duplicated frame
writes driven by the streaming loop.  `fps` and `dup` are not validated by
the source. -/
def run (minutes seconds : ℚ) (width height fps dup : ℕ) :
    Except ValErr (List RunEvent) :=
  if 3840 < width ∨ 2160 < height then
    Except.error ValErr.maxResolution
  else if minutes * 60 + seconds ≤ 0 then
    Except.error ValErr.nonPositiveLength
  else
    Except.ok (RunEvent.spawned ::
      (schedule dup (targetFrames (minutes * 60 + seconds) fps)).flatMap
        (fun rep => List.replicate rep (RunEvent.wrote (width * height * 3))))

end AbstractFlow

namespace BouncingBall

/-- Function `run` of bouncing_ball.py (lines 43-128), same validation and trace
shape as abstract_flow.  `radius` and `speed` only shape pixels, never the
validation or the event trace. -/
def run (minutes seconds : ℚ) (width height fps dup : ℕ)
    (radius speed : ℚ) : Except ValErr (List RunEvent) :=
  if 3840 < width ∨ 2160 < height then
    Except.error ValErr.maxResolution
  else if minutes * 60 + seconds ≤ 0 then
    Except.error ValErr.nonPositiveLength
  else
    Except.ok (RunEvent.spawned ::
      (schedule dup (targetFrames (minutes * 60 + seconds) fps)).flatMap
        (fun rep => List.replicate rep (RunEvent.wrote (width * height * 3))))

end BouncingBall

/-- Function `ask_int(prompt, default, min_val)` of bouncing_ball.py lines 23-28
(same code in starfield.py and spiral_black_hole.py): an empty reply takes
the default, and a value below `min_val` raises `ValueError`.  `raw` is the
parsed reply, `none` standing for an empty line. -/
def ask_int (raw : Option ℤ) (default : ℤ) (min_val : Option ℤ) :
    Except ValErr ℤ :=
  let val := raw.getD default
  match min_val with
  | some m => if val < m then Except.error (ValErr.belowMin m) else Except.ok val
  | none => Except.ok val

/-! ## Encoder pipe shutdown

abstract_flow.py wraps its loop in `try/finally` (lines 88-114): the
`finally` block closes `proc.stdin` once and calls `proc.wait()`, after
which a completed loop checks `proc.returncode` and raises
`RuntimeError(f"ffmpeg exited with status ...")` on a non-zero status,
while an exception from the loop body propagates instead.
spiral_black_hole.py `main` (lines 229-239) catches every loop exception
with `except Exception` and prints it, closes and waits in `finally`, and
then only prints the non-zero exit status to stderr: it never raises. -/

/-- How the streaming loop body ended. -/
inductive LoopOutcome where
  /-- the loop wrote all `target_frames` frames and fell through -/
  | completed
  /-- Call `proc.stdin.write` raised (e.g. a broken pipe) -/
  | writeFailure
  /-- frame synthesis itself raised -/
  | synthFault
  deriving DecidableEq

/-- The exception escaping a run after shutdown, if any. -/
inductive PipeError where
  /-- Exception `RuntimeError` with message "ffmpeg exited with status N", carrying N -/
  | encodingFailed (status : ℤ)
  /-- the loop-body exception re-raised after the `finally` block ran -/
  | propagated (fault : LoopOutcome)
  deriving DecidableEq

/-- What the shutdown path did: how many times the encoder stdin was
closed, whether the child was awaited, and the exception that escaped. -/
structure Teardown where
  stdinCloses : ℕ
  waited : Bool
  raised : Option PipeError
  deriving DecidableEq

namespace AbstractFlow

/-- Shutdown of abstract_flow.py `run` (lines 109-114): `finally` closes
stdin once and waits; a loop exception then propagates, otherwise a
non-zero `returncode` raises `RuntimeError` carrying the status. The same
tail appears in bouncing_ball.py (129-134) and starfield.py (136-141). -/
def teardown (outcome : LoopOutcome) (returncode : ℤ) : Teardown :=
  { stdinCloses := 1
    waited := true
    raised :=
      match outcome with
      | LoopOutcome.completed =>
        if returncode = 0 then none
        else some (PipeError.encodingFailed returncode)
      | fault => some (PipeError.propagated fault) }

end AbstractFlow

namespace SpiralBlackHole

/-- Shutdown of spiral_black_hole.py `main` (lines 229-239): the
`except Exception` arm prints any loop fault, `finally` closes stdin once
and waits, and a non-zero `returncode` is only printed to stderr — no
exception ever escapes. -/
def teardown (outcome : LoopOutcome) (returncode : ℤ) : Teardown :=
  { stdinCloses := 1
    waited := true
    raised := none }

end SpiralBlackHole

/-! ## Color model -/

namespace AbstractFlow

/-- Function `hsv_to_rgb` of abstract_flow.py lines 21-30 (textually identical in
starfield.py lines 42-51), at one array element: six-sector selection with
`i = floor(h*6)`, `f = h*6 - i`, and `np.choose(i % 6, ...)` tables.  The
result is the raw selected triple — this version does not scale to
[0, 255]. -/
def hsv_to_rgb (h s v : ℚ) : ℚ × ℚ × ℚ :=
  let i : ℤ := ⌊h * 6⌋
  let f : ℚ := h * 6 - (i : ℚ)
  let p : ℚ := v * (1 - s)
  let q : ℚ := v * (1 - f * s)
  let t : ℚ := v * (1 - (1 - f) * s)
  let r : ℚ :=
    match (i % 6).toNat with
    | 0 => v | 1 => q | 2 => p | 3 => p | 4 => t | _ => v
  let g : ℚ :=
    match (i % 6).toNat with
    | 0 => t | 1 => v | 2 => v | 3 => q | 4 => p | _ => p
  let b : ℚ :=
    match (i % 6).toNat with
    | 0 => p | 1 => p | 2 => t | 3 => v | 4 => v | _ => q
  (r, g, b)

end AbstractFlow

/-- Source: `np.clip(x * 255.0, 0, 255).astype(np.uint8)` at one element: scale to
[0, 255], clamp, truncate toward zero. -/
def clampTrunc255 (x : ℚ) : ℕ :=
  (⌊min (max (x * 255) 0) 255⌋).toNat

namespace SpiralBlackHole

/-- Function `hsv_to_rgb` of spiral_black_hole.py lines 52-66: the same six-sector
selection, then `np.clip(rgb * 255.0, 0, 255).astype(np.uint8)`. -/
def hsv_to_rgb (h s v : ℚ) : ℕ × ℕ × ℕ :=
  let rgb := AbstractFlow.hsv_to_rgb h s v
  (clampTrunc255 rgb.1, clampTrunc255 rgb.2.1, clampTrunc255 rgb.2.2)

end SpiralBlackHole

/-- Modelled from the spec (section 4.3 Color Model), for comparison with
the source functions: sector index `floor(h*6) mod 6`, fractional part
`f = h*6 − floor(h*6)`, `p = v(1−s)`, `q = v(1−fs)`, `t = v(1−(1−f)s)`,
the three sector tables, then scale to [0, 255], clamp, truncate. -/
def hsvSixSectorSpec (h s v : ℚ) : ℕ × ℕ × ℕ :=
  let sector : ℕ := ((⌊h * 6⌋ : ℤ) % 6).toNat
  let f : ℚ := h * 6 - ((⌊h * 6⌋ : ℤ) : ℚ)
  let p : ℚ := v * (1 - s)
  let q : ℚ := v * (1 - f * s)
  let t : ℚ := v * (1 - (1 - f) * s)
  let rSel : ℚ :=
    match sector with
    | 0 => v | 1 => q | 2 => p | 3 => p | 4 => t | _ => v
  let gSel : ℚ :=
    match sector with
    | 0 => t | 1 => v | 2 => v | 3 => q | 4 => p | _ => p
  let bSel : ℚ :=
    match sector with
    | 0 => p | 1 => p | 2 => t | 3 => v | 4 => v | _ => q
  (clampTrunc255 rSel, clampTrunc255 gSel, clampTrunc255 bSel)

/-! ## Per-variant 8-bit sample policies -/

namespace GradientCycle

/-- One accumulator step of gradient_cycle.py `generate_video` (lines
126-129): `accumulator = accumulator + current_grad.astype(np.uint16)` at
one channel sample, with uint16 wraparound. -/
def accumStep (acc contrib : ℕ) : ℕ := (acc + contrib) % 65536

/-- The accumulator after the listed per-segment gradient contributions,
starting from `np.zeros(..., dtype=np.uint16)` (line 111). -/
def accumAfter (contribs : List ℕ) : ℕ := contribs.foldl accumStep 0

/-- Source: `frame = (accumulator & 0xFF).astype(np.uint8)` (line 131) at one
channel sample: the low byte of the accumulator. -/
def frameSample (acc : ℕ) : ℕ := acc &&& 255

end GradientCycle

namespace AbstractFlow

/-- Source: `frame = np.clip(accum / len(layers), 0, 255).astype(np.uint8)` of
abstract_flow.py line 103 at one channel sample, with the three layers'
`rgb * 255.0` contributions already summed into `accum`. -/
def frameSample (accum : ℚ) : ℕ :=
  (⌊min (max (accum / 3) 0) 255⌋).toNat

end AbstractFlow

/-! ## Ball physics -/

namespace BouncingBall

/-- The mutable ball state of bouncing_ball.py `run`: position, velocity
(pixels per second) and current RGB color. -/
structure BallState where
  x : ℚ
  y : ℚ
  vx : ℚ
  vy : ℚ
  color : ℕ × ℕ × ℕ
  deriving DecidableEq

/-- One wall check of bouncing_ball.py lines 99-106 (and the mirrored
lines 107-114 for `y`): given the already-integrated coordinate, return
the clamped coordinate, the updated velocity component and whether this
axis bounced.  The low wall sets `v = abs(v)`, the high wall
`v = -abs(v)`; the two walls form an `if/elif` chain. -/
def stepAxis (high radius coord v : ℚ) : ℚ × ℚ × Bool :=
  if coord < radius then (radius, |v|, true)
  else if coord > high - radius then (high - radius, -|v|, true)
  else (coord, v, false)

/-- One simulation step of bouncing_ball.py `run` lines 96-116: integrate
at fixed timestep `1/fps`, clamp-and-reflect each axis, and draw one fresh
`random_color` when any wall was hit.  Returns the new state and the
number of recolor events (`random_color` draws) of the step; `fresh` is
the oracle value such a draw returns. -/
def ballStep (fps width height radius : ℚ) (fresh : ℕ × ℕ × ℕ)
    (s : BallState) : BallState × ℕ :=
  let ax := stepAxis width radius (s.x + s.vx / fps) s.vx
  let ay := stepAxis height radius (s.y + s.vy / fps) s.vy
  let bounced := ax.2.2 || ay.2.2
  ({ x := ax.1
     y := ay.1
     vx := ax.2.1
     vy := ay.2.1
     color := if bounced then fresh else s.color },
   if bounced then 1 else 0)

end BouncingBall

/-! ## Starfield particles -/

namespace Starfield

/-- One particle of starfield.py `run` (lines 89-96): position,
depth-derived speed, HSV color and splat size. -/
structure Star where
  x : ℚ
  y : ℚ
  depth : ℚ
  speed : ℚ
  hue : ℚ
  sat : ℚ
  val : ℚ
  size : ℕ
  deriving DecidableEq

/-- The oracle draws consumed when one particle respawns (starfield.py
lines 105-112): `dx` is the `rng.uniform(0, 5)` summand added to `width`,
`hue` the per-particle `rng.random()` draw, the rest the per-field fresh
draws. -/
structure StarFresh where
  dx : ℚ
  y : ℚ
  depth : ℚ
  hue : ℚ
  sat : ℚ
  size : ℕ
  deriving DecidableEq

/-- One step of one particle, starfield.py lines 101-112: integrate
`x -= speed / fps`, then respawn exactly when `x < -3` with
`x = width + uniform(0, 5)`, fresh depth, depth-derived speed
`60 + 340*depth`, fresh hue/sat (`hueShared` is the step's shared
`rng.random()` in `hue = random(count)*0.15 + random()*0.2`), the
depth-derived value `0.4 + 0.6*depth`, and a fresh size. -/
def starStep (fps width hueShared : ℚ) (fresh : StarFresh) (p : Star) :
    Star :=
  let x := p.x - p.speed / fps
  if x < -3 then
    { x := width + fresh.dx
      y := fresh.y
      depth := fresh.depth
      speed := 60 + 340 * fresh.depth
      hue := fresh.hue * 0.15 + hueShared * 0.2
      sat := fresh.sat
      val := 0.4 + 0.6 * fresh.depth
      size := fresh.size }
  else
    { p with x := x }

/-- The vectorised update of the whole particle array: each particle is
integrated and (if wrapped) respawned independently of the others. -/
def starfieldStep (fps width hueShared : ℚ) (fresh : List StarFresh)
    (ps : List Star) : List Star :=
  List.zipWith (starStep fps width hueShared) fresh ps

end Starfield

/-! ## Encoder wire format

`frame.tobytes()` serialises the C-contiguous `(height, width, 3)` uint8
array: rows top to bottom, pixels left to right, channels in R, G, B
order, no padding or header. -/

/-- The three bytes of one pixel, in R, G, B order. -/
def pixelBytes (px : ℕ × ℕ × ℕ) : List ℕ := [px.1, px.2.1, px.2.2]

/-- One raster row of `w` pixels, left to right. -/
def rowBytes (w : ℕ) (row : ℕ → ℕ × ℕ × ℕ) : List ℕ :=
  (List.range w).flatMap (fun c => pixelBytes (row c))

/-- Serialisation `frame.tobytes()` of an `(h, w, 3)` buffer `buf` (row, column ↦
pixel): rows top to bottom. -/
def frameBytes (h w : ℕ) (buf : ℕ → ℕ → ℕ × ℕ × ℕ) : List ℕ :=
  (List.range h).flatMap (fun r => rowBytes w (buf r))

/-- Channel selector matching the byte order of `pixelBytes`. -/
def channelSample (px : ℕ × ℕ × ℕ) : ℕ → ℕ
  | 0 => px.1
  | 1 => px.2.1
  | _ => px.2.2

/-- The writes of one logical step: `for _ in range(repeat):
proc.stdin.write(frame.tobytes())` pushes `repeat` copies of the one
computed serialisation — the buffer is not recomputed between copies. -/
def stepWrites (rep : ℕ) (frame : List ℕ) : List (List ℕ) :=
  List.replicate rep frame

/-- All writes of a run, in order: the streaming loop computes the frame
of each logical index once and writes it `repeat` times. -/
def runWrites (dup target : ℕ) (frameOf : ℕ → List ℕ) : List (List ℕ) :=
  (loopSteps target dup target 0).flatMap
    (fun p => stepWrites p.2 (frameOf p.1))

/-! ## Scheduler lemmas -/

theorem loopSteps_rem_zero (fuel dup k : ℕ) : loopSteps fuel dup 0 k = [] := by
  cases fuel <;> simp [loopSteps]

theorem loopSteps_sum (dup : ℕ) (hdup : 1 ≤ dup) :
    ∀ fuel rem k : ℕ, rem ≤ fuel →
      ((loopSteps fuel dup rem k).map (fun p => p.2)).sum = rem := by
  intro fuel
  induction fuel with
  | zero =>
    intro rem k hle
    have h0 : rem = 0 := Nat.le_zero.mp hle
    simp [h0, loopSteps]
  | succ n ih =>
    intro rem k hle
    by_cases h0 : rem = 0
    · simp [h0, loopSteps]
    · have h1 : 1 ≤ rem := Nat.one_le_iff_ne_zero.mpr h0
      have hm : 1 ≤ min dup rem := le_min hdup h1
      rw [loopSteps, if_neg h0]
      simp only [List.map_cons, List.sum_cons]
      rw [ih (rem - min dup rem) (k + 1) (by omega)]
      omega

theorem loopSteps_length (dup : ℕ) (hdup : 1 ≤ dup) :
    ∀ fuel rem k : ℕ, rem ≤ fuel →
      (loopSteps fuel dup rem k).length = (rem + dup - 1) / dup := by
  intro fuel
  induction fuel with
  | zero =>
    intro rem k hle
    have h0 : rem = 0 := Nat.le_zero.mp hle
    subst h0
    simp [loopSteps, Nat.div_eq_of_lt (by omega : dup - 1 < dup)]
  | succ n ih =>
    intro rem k hle
    by_cases h0 : rem = 0
    · subst h0
      simp [loopSteps, Nat.div_eq_of_lt (by omega : dup - 1 < dup)]
    · have h1 : 1 ≤ rem := Nat.one_le_iff_ne_zero.mpr h0
      rw [loopSteps, if_neg h0, List.length_cons]
      rcases le_or_lt dup rem with hcase | hcase
      · have hmin : min dup rem = dup := min_eq_left hcase
        rw [hmin, ih (rem - dup) (k + 1) (by omega)]
        have e1 : rem - dup + dup - 1 = rem - 1 := by omega
        have e2 : rem + dup - 1 = rem - 1 + dup := by omega
        rw [e1, e2, Nat.add_div_right _ (by omega : 0 < dup)]
      · have hmin : min dup rem = rem := min_eq_right (le_of_lt hcase)
        rw [hmin, Nat.sub_self, loopSteps_rem_zero, List.length_nil]
        exact (Nat.div_eq_of_lt_le (by omega) (by omega)).symm

theorem loopSteps_repeat_bounds (dup : ℕ) (hdup : 1 ≤ dup) :
    ∀ fuel rem k : ℕ, ∀ p ∈ loopSteps fuel dup rem k, 1 ≤ p.2 ∧ p.2 ≤ dup := by
  intro fuel
  induction fuel with
  | zero => intro rem k p hp; simp [loopSteps] at hp
  | succ n ih =>
    intro rem k p hp
    by_cases h0 : rem = 0
    · simp [h0, loopSteps] at hp
    · rw [loopSteps, if_neg h0] at hp
      rcases List.mem_cons.mp hp with h | h
      · subst h
        exact ⟨by omega, min_le_left _ _⟩
      · exact ih _ _ p h

theorem loopSteps_dup_zero_sum :
    ∀ fuel rem k : ℕ, ((loopSteps fuel 0 rem k).map (fun p => p.2)).sum = 0 := by
  intro fuel
  induction fuel with
  | zero => intro rem k; simp [loopSteps]
  | succ n ih =>
    intro rem k
    by_cases h0 : rem = 0
    · simp [h0, loopSteps]
    · rw [loopSteps, if_neg h0]
      simp only [List.map_cons, List.sum_cons, Nat.zero_min, Nat.sub_zero]
      rw [ih rem (k + 1)]

theorem schedule_sum (dup target : ℕ) (hdup : 1 ≤ dup) :
    (schedule dup target).sum = target :=
  loopSteps_sum dup hdup target target 0 (le_refl _)

theorem schedule_length (dup target : ℕ) (hdup : 1 ≤ dup) :
    (schedule dup target).length = (target + dup - 1) / dup := by
  unfold schedule
  rw [List.length_map]
  exact loopSteps_length dup hdup target target 0 (le_refl _)

theorem schedule_mem_bounds (dup target : ℕ) (hdup : 1 ≤ dup) :
    ∀ rep ∈ schedule dup target, 1 ≤ rep ∧ rep ≤ dup := by
  intro rep hrep
  unfold schedule at hrep
  rcases List.mem_map.mp hrep with ⟨p, hp, hpe⟩
  rcases loopSteps_repeat_bounds dup hdup target target 0 p hp with ⟨h1, h2⟩
  omega

theorem one_le_targetFrames (totalSeconds : ℚ) (fps : ℕ)
    (hts : 0 < totalSeconds) (hfps : 1 ≤ fps) :
    1 ≤ targetFrames totalSeconds fps := by
  have hfq : (0 : ℚ) < (fps : ℚ) := by
    exact_mod_cast Nat.lt_of_lt_of_le Nat.zero_lt_one hfps
  have hpos : (0 : ℚ) < totalSeconds * (fps : ℚ) := mul_pos hts hfq
  have hceil : 0 < ⌈totalSeconds * (fps : ℚ)⌉ := Int.ceil_pos.mpr hpos
  unfold targetFrames
  omega

/-! ## Claim C1 -/

/-- Claim C1: for every validated configuration (positive total duration,
`fps ≥ 1`, `dup ≥ 1`) the generation loop writes exactly
`target_frames = ceil(total_seconds * fps)` frames: the repeat counts of
the duplication schedule sum to `target_frames` exactly, each repeat count
is at most `dup` (the final batch is truncated, never overshooting), and
with duplication factor 3 and 10 target frames the repeat counts are
`[3, 3, 3, 1]`. -/
theorem claim1_schedule_exact (totalSeconds : ℚ) (fps dup : ℕ)
    (hts : 0 < totalSeconds) (hfps : 1 ≤ fps) (hdup : 1 ≤ dup) :
    1 ≤ targetFrames totalSeconds fps ∧
    (schedule dup (targetFrames totalSeconds fps)).sum
      = targetFrames totalSeconds fps ∧
    (∀ rep ∈ schedule dup (targetFrames totalSeconds fps), rep ≤ dup) ∧
    schedule 3 10 = [3, 3, 3, 1] := by
  refine ⟨one_le_targetFrames totalSeconds fps hts hfps,
    schedule_sum dup _ hdup, ?_, by decide⟩
  intro rep hrep
  exact (schedule_mem_bounds dup _ hdup rep hrep).2

/-- Witness for C1 at `total_seconds = 1/3`, `fps = 30`, `dup = 3`
(so `target_frames = 10`). -/
theorem claim1_schedule_exact_witness :
    1 ≤ targetFrames (1 / 3) 30 ∧
    (schedule 3 (targetFrames (1 / 3) 30)).sum = targetFrames (1 / 3) 30 ∧
    (∀ rep ∈ schedule 3 (targetFrames (1 / 3) 30), rep ≤ 3) ∧
    schedule 3 10 = [3, 3, 3, 1] :=
  claim1_schedule_exact (1 / 3) 30 3 (by norm_num) (by norm_num) (by norm_num)

/-! ## Claim C10 -/

/-- Claim C10: for `target_frames ≥ 1` and `dup ≥ 1` the streaming loop
terminates: every iteration writes at least one frame, the loop performs
exactly `ceil(target/dup)` iterations and completes all `target` frames;
with `dup = 0` (which `run()` itself never checks — it spawns the encoder
regardless) the written-frame count stays 0 forever, however much fuel the
loop is given. -/
theorem claim10_loop_termination (dup target : ℕ)
    (hdup : 1 ≤ dup) (htarget : 1 ≤ target) :
    (schedule dup target).sum = target ∧
    (schedule dup target).length = (target + dup - 1) / dup ∧
    (∀ rep ∈ schedule dup target, 1 ≤ rep) ∧
    (∀ fuel k, ((loopSteps fuel 0 target k).map (fun p => p.2)).sum = 0) ∧
    spawnedEncoder (AbstractFlow.run 0 1 640 480 30 0) = true := by
  refine ⟨schedule_sum dup target hdup, schedule_length dup target hdup,
    ?_, fun fuel k => loopSteps_dup_zero_sum fuel target k, ?_⟩
  · intro rep hrep
    exact (schedule_mem_bounds dup target hdup rep hrep).1
  · norm_num [AbstractFlow.run, spawnedEncoder]

/-- Witness for C10 at `dup = 4`, `target = 10`. -/
theorem claim10_loop_termination_witness :
    (schedule 4 10).sum = 10 ∧
    (schedule 4 10).length = (10 + 4 - 1) / 4 ∧
    (∀ rep ∈ schedule 4 10, 1 ≤ rep) ∧
    (∀ fuel k, ((loopSteps fuel 0 10 k).map (fun p => p.2)).sum = 0) ∧
    spawnedEncoder (AbstractFlow.run 0 1 640 480 30 0) = true :=
  claim10_loop_termination 4 10 (by decide) (by decide)

/-! ## Claim C6 -/

/-- Claim C6: a configuration with `width > 3840` or `height > 2160` is
rejected with `ValueError("Max resolution is 3840x2160.")` before the
encoder subprocess is spawned (the error return carries no events at all),
a non-positive total duration `minutes*60 + seconds ≤ 0` is likewise
rejected, and the boundary configuration `width = 3840, height = 2160,
duration = 1 s, fps = 30, dup = 1` is accepted, in both abstract_flow.run
and bouncing_ball.run. -/
theorem claim6_session_validation (minutes seconds : ℚ)
    (width height fps dup : ℕ) (radius speed : ℚ) :
    (3840 < width ∨ 2160 < height →
      AbstractFlow.run minutes seconds width height fps dup
          = Except.error ValErr.maxResolution ∧
      BouncingBall.run minutes seconds width height fps dup radius speed
          = Except.error ValErr.maxResolution) ∧
    (minutes * 60 + seconds ≤ 0 →
      runOk (AbstractFlow.run minutes seconds width height fps dup) = false ∧
      runOk (BouncingBall.run minutes seconds width height fps dup radius speed)
          = false) ∧
    runOk (AbstractFlow.run 0 1 3840 2160 30 1) = true ∧
    runOk (BouncingBall.run 0 1 3840 2160 30 1 40 450) = true := by
  refine ⟨?_, ?_, by norm_num [AbstractFlow.run, runOk],
    by norm_num [BouncingBall.run, runOk]⟩
  · intro hres
    constructor
    · rw [AbstractFlow.run, if_pos hres]
    · rw [BouncingBall.run, if_pos hres]
  · intro hdur
    by_cases hres : 3840 < width ∨ 2160 < height
    · constructor
      · rw [AbstractFlow.run, if_pos hres]; rfl
      · rw [BouncingBall.run, if_pos hres]; rfl
    · constructor
      · rw [AbstractFlow.run, if_neg hres, if_pos hdur]; rfl
      · rw [BouncingBall.run, if_neg hres, if_pos hdur]; rfl

/-- Witness for C6: `width = 7680` is rejected, and a zero-length session
is rejected. -/
theorem claim6_session_validation_witness :
    AbstractFlow.run 0 1 7680 1080 30 1 = Except.error ValErr.maxResolution ∧
    runOk (AbstractFlow.run 0 0 1920 1080 30 1) = false :=
  ⟨((claim6_session_validation 0 1 7680 1080 30 1 40 450).1
      (Or.inl (by norm_num))).1,
   ((claim6_session_validation 0 0 1920 1080 30 1 40 450).2.1 (by norm_num)).1⟩

/-! ## Claim C7 -/

/-- Counterexample to claim C7: the configuration `fps = 0, dup = 0`
(duration and resolution valid) is not rejected by `run` — validation
passes and the encoder subprocess is spawned.  `run` never inspects `fps`
or `dup`; only some CLI prompts do. -/
theorem claim7_fps_dup_unchecked_cex :
    runOk (AbstractFlow.run 0 1 1920 1080 0 0) = true ∧
    spawnedEncoder (AbstractFlow.run 0 1 1920 1080 0 0) = true := by
  constructor
  · norm_num [AbstractFlow.run, runOk]
  · norm_num [AbstractFlow.run, spawnedEncoder]

/-- Claim C7 as amended: `fps ≤ 0` and `dup < 1` are rejected (with a
typed `ValueError` carrying the bound) only by the `ask_int` prompts that
the bouncing_ball/starfield/spiral CLIs call with `min_val = 1`; values at
or above the bound are returned unchanged.  The `run()` validation itself
checks neither field, so a programmatic entry point spawns the encoder
subprocess even with `fps = 0` and `dup = 0`. -/
theorem claim7_validation_amended (raw : Option ℤ) (default bound : ℤ) :
    (raw.getD default < bound →
      ask_int raw default (some bound) = Except.error (ValErr.belowMin bound)) ∧
    (bound ≤ raw.getD default →
      ask_int raw default (some bound) = Except.ok (raw.getD default)) ∧
    spawnedEncoder (AbstractFlow.run 0 2 1280 720 0 0) = true := by
  refine ⟨?_, ?_, by norm_num [AbstractFlow.run, spawnedEncoder]⟩
  · intro hlt
    rw [ask_int, if_pos hlt]
  · intro hge
    rw [ask_int, if_neg (by omega)]

/-- Witness for the amended C7: the CLI prompt `ask_int(..., 30, 1)` with
reply 0 (an `fps ≤ 0` / `dup < 1` request) raises, and with reply 5
returns 5. -/
theorem claim7_validation_amended_witness :
    ask_int (some 0) 30 (some 1) = Except.error (ValErr.belowMin 1) ∧
    ask_int (some 5) 30 (some 1) = Except.ok 5 :=
  ⟨(claim7_validation_amended (some 0) 30 1).1 (by decide),
   (claim7_validation_amended (some 5) 30 1).2.1 (by decide)⟩

/-! ## Claim C2 -/

/-- Counterexample to claim C2: when the mock encoder exits with status 1
after a completed spiral_black_hole.py run, `main` does close the input
stream exactly once and await the child, but raises nothing at all — the
non-zero status is only printed, so no typed error carrying status 1 is
raised on that exit path. -/
theorem claim2_spiral_no_raise_cex :
    (SpiralBlackHole.teardown LoopOutcome.completed 1).stdinCloses = 1 ∧
    (SpiralBlackHole.teardown LoopOutcome.completed 1).waited = true ∧
    (SpiralBlackHole.teardown LoopOutcome.completed 1).raised = none ∧
    (SpiralBlackHole.teardown LoopOutcome.completed 1).raised
      ≠ some (PipeError.encodingFailed 1) := by
  exact ⟨rfl, rfl, rfl, by decide⟩

/-- Claim C2 as amended: on every exit path — completion, write failure,
synthesis fault — both the abstract_flow-style `run` teardown and the
spiral_black_hole teardown close the encoder stdin exactly once and await
the child; in abstract_flow-style runs a completed loop followed by a
non-zero exit status raises `RuntimeError` carrying that status (any other
loop fault propagates unchanged, and status 0 raises nothing), while
spiral_black_hole.main never raises, reporting a non-zero status on stderr
only. -/
theorem claim2_teardown_amended (outcome : LoopOutcome) (returncode : ℤ) :
    (AbstractFlow.teardown outcome returncode).stdinCloses = 1 ∧
    (AbstractFlow.teardown outcome returncode).waited = true ∧
    (SpiralBlackHole.teardown outcome returncode).stdinCloses = 1 ∧
    (SpiralBlackHole.teardown outcome returncode).waited = true ∧
    (returncode ≠ 0 →
      (AbstractFlow.teardown LoopOutcome.completed returncode).raised
        = some (PipeError.encodingFailed returncode)) ∧
    (outcome ≠ LoopOutcome.completed →
      (AbstractFlow.teardown outcome returncode).raised
        = some (PipeError.propagated outcome)) ∧
    (AbstractFlow.teardown LoopOutcome.completed 0).raised = none ∧
    (SpiralBlackHole.teardown outcome returncode).raised = none := by
  refine ⟨rfl, rfl, rfl, rfl, ?_, ?_, rfl, rfl⟩
  · intro hrc
    simp [AbstractFlow.teardown, hrc]
  · intro houtcome
    cases outcome with
    | completed => exact absurd rfl houtcome
    | writeFailure => rfl
    | synthFault => rfl

/-- Witness for the amended C2 at a completed run with exit status 1 and a
synthesis fault with exit status 0. -/
theorem claim2_teardown_amended_witness :
    (AbstractFlow.teardown LoopOutcome.completed 1).raised
      = some (PipeError.encodingFailed 1) ∧
    (AbstractFlow.teardown LoopOutcome.synthFault 0).raised
      = some (PipeError.propagated LoopOutcome.synthFault) ∧
    (AbstractFlow.teardown LoopOutcome.synthFault 0).stdinCloses = 1 ∧
    (SpiralBlackHole.teardown LoopOutcome.writeFailure 1).raised = none :=
  ⟨(claim2_teardown_amended LoopOutcome.completed 1).2.2.2.2.1 (by decide),
   (claim2_teardown_amended LoopOutcome.synthFault 0).2.2.2.2.2.1 (by decide),
   (claim2_teardown_amended LoopOutcome.synthFault 0).1,
   (claim2_teardown_amended LoopOutcome.writeFailure 1).2.2.2.2.2.2.2⟩

/-! ## Claim C3 -/

/-- Claim C3: each ball step first integrates at fixed timestep `1/fps`;
a coordinate that crossed a wall is clamped exactly to the wall value
with the velocity component set to the sign pointing back into the field
(`abs` at the low wall, `-abs` at the high wall), a bouncing step draws
exactly one fresh color, and a step with no crossing keeps position
integration only, with the color unchanged and no recolor.  In
particular a ball at `x = radius` with `vx < 0` ends the step at
`x = radius` exactly, with `vx = |vx| = -vx` and one recolor. -/
theorem claim3_ball_physics (fps width height radius : ℚ)
    (fresh : ℕ × ℕ × ℕ) (s : BouncingBall.BallState) (hfps : 0 < fps) :
    (s.x + s.vx / fps < radius →
      (BouncingBall.ballStep fps width height radius fresh s).1.x = radius ∧
      (BouncingBall.ballStep fps width height radius fresh s).1.vx = |s.vx| ∧
      (BouncingBall.ballStep fps width height radius fresh s).2 = 1 ∧
      (BouncingBall.ballStep fps width height radius fresh s).1.color = fresh) ∧
    (¬ s.x + s.vx / fps < radius → s.x + s.vx / fps > width - radius →
      (BouncingBall.ballStep fps width height radius fresh s).1.x
          = width - radius ∧
      (BouncingBall.ballStep fps width height radius fresh s).1.vx = -|s.vx| ∧
      (BouncingBall.ballStep fps width height radius fresh s).2 = 1) ∧
    (s.y + s.vy / fps < radius →
      (BouncingBall.ballStep fps width height radius fresh s).1.y = radius ∧
      (BouncingBall.ballStep fps width height radius fresh s).1.vy = |s.vy| ∧
      (BouncingBall.ballStep fps width height radius fresh s).2 = 1) ∧
    (¬ s.y + s.vy / fps < radius → s.y + s.vy / fps > height - radius →
      (BouncingBall.ballStep fps width height radius fresh s).1.y
          = height - radius ∧
      (BouncingBall.ballStep fps width height radius fresh s).1.vy = -|s.vy| ∧
      (BouncingBall.ballStep fps width height radius fresh s).2 = 1) ∧
    (¬ s.x + s.vx / fps < radius → ¬ s.x + s.vx / fps > width - radius →
     ¬ s.y + s.vy / fps < radius → ¬ s.y + s.vy / fps > height - radius →
      (BouncingBall.ballStep fps width height radius fresh s).1
          = { x := s.x + s.vx / fps, y := s.y + s.vy / fps, vx := s.vx,
              vy := s.vy, color := s.color } ∧
      (BouncingBall.ballStep fps width height radius fresh s).2 = 0) ∧
    (s.x = radius → s.vx < 0 →
      (BouncingBall.ballStep fps width height radius fresh s).1.x = radius ∧
      (BouncingBall.ballStep fps width height radius fresh s).1.vx = -s.vx ∧
      (BouncingBall.ballStep fps width height radius fresh s).2 = 1) := by
  have mainLowX : s.x + s.vx / fps < radius →
      (BouncingBall.ballStep fps width height radius fresh s).1.x = radius ∧
      (BouncingBall.ballStep fps width height radius fresh s).1.vx = |s.vx| ∧
      (BouncingBall.ballStep fps width height radius fresh s).2 = 1 ∧
      (BouncingBall.ballStep fps width height radius fresh s).1.color
        = fresh := by
    intro hx
    simp [BouncingBall.ballStep, BouncingBall.stepAxis, hx]
  refine ⟨mainLowX, ?_, ?_, ?_, ?_, ?_⟩
  · intro h1 h2
    simp [BouncingBall.ballStep, BouncingBall.stepAxis, h1, h2]
  · intro hy
    simp [BouncingBall.ballStep, BouncingBall.stepAxis, hy]
  · intro h3 h4
    simp [BouncingBall.ballStep, BouncingBall.stepAxis, h3, h4]
  · intro h1 h2 h3 h4
    simp [BouncingBall.ballStep, BouncingBall.stepAxis, h1, h2, h3, h4]
  · intro hxeq hvx
    have hx : s.x + s.vx / fps < radius := by
      rw [hxeq]
      have := div_neg_of_neg_of_pos hvx hfps
      linarith
    obtain ⟨e1, e2, e3, _⟩ := mainLowX hx
    exact ⟨e1, by rw [e2, abs_of_neg hvx], e3⟩

/-- Witness for C3: a ball at `x = 40 = radius` with `vx = -30`, `fps = 30`
(so the step crosses the low x wall) is clamped back to 40, has its
velocity flipped to 30 and triggers one recolor. -/
theorem claim3_ball_physics_witness :
    (BouncingBall.ballStep 30 1920 1080 40 (1, 2, 3)
        { x := 40, y := 500, vx := -30, vy := 7, color := (9, 9, 9) }).1.x
      = 40 ∧
    (BouncingBall.ballStep 30 1920 1080 40 (1, 2, 3)
        { x := 40, y := 500, vx := -30, vy := 7, color := (9, 9, 9) }).1.vx
      = 30 ∧
    (BouncingBall.ballStep 30 1920 1080 40 (1, 2, 3)
        { x := 40, y := 500, vx := -30, vy := 7, color := (9, 9, 9) }).2
      = 1 := by
  obtain ⟨e1, e2, e3⟩ :=
    (claim3_ball_physics 30 1920 1080 40 (1, 2, 3)
        { x := 40, y := 500, vx := -30, vy := 7, color := (9, 9, 9) }
        (by norm_num)).2.2.2.2.2 (by norm_num) (by norm_num)
  refine ⟨e1, ?_, e3⟩
  rw [e2]
  norm_num

/-! ## Claim C9 -/

/-- Claim C9: every starfield step first integrates each particle
linearly at fixed timestep `1/fps` (`x` decreases by `speed/fps`); exactly
the particles that end below the trailing edge (`x < -3`) are respawned at
the leading edge (`x = width + uniform(0,5) ≥ width`) with freshly drawn
depth, the depth-derived speed `60 + 340*depth`, fresh hue/saturation, the
depth-derived value `0.4 + 0.6*depth`, fresh vertical position and size;
every other particle keeps all fields except the integrated `x`; and a
step in which a particle does not wrap consumes no randomness for it (the
result is independent of the oracle), so respawn is the only source of
randomness after initialisation.  The whole array updates particlewise. -/
theorem claim9_starfield_step (fps width hueShared : ℚ)
    (fresh : Starfield.StarFresh) (p : Starfield.Star)
    (hfps : 0 < fps) (hdx : 0 ≤ fresh.dx) :
    (¬ p.x - p.speed / fps < -3 →
      Starfield.starStep fps width hueShared fresh p
        = { p with x := p.x - p.speed / fps }) ∧
    (p.x - p.speed / fps < -3 →
      (Starfield.starStep fps width hueShared fresh p).x = width + fresh.dx ∧
      width ≤ (Starfield.starStep fps width hueShared fresh p).x ∧
      (Starfield.starStep fps width hueShared fresh p).depth = fresh.depth ∧
      (Starfield.starStep fps width hueShared fresh p).speed
          = 60 + 340 * fresh.depth ∧
      (Starfield.starStep fps width hueShared fresh p).hue
          = fresh.hue * 0.15 + hueShared * 0.2 ∧
      (Starfield.starStep fps width hueShared fresh p).sat = fresh.sat ∧
      (Starfield.starStep fps width hueShared fresh p).val
          = 0.4 + 0.6 * fresh.depth ∧
      (Starfield.starStep fps width hueShared fresh p).y = fresh.y ∧
      (Starfield.starStep fps width hueShared fresh p).size = fresh.size) ∧
    (∀ (fresh2 : Starfield.StarFresh) (hueShared2 : ℚ),
      ¬ p.x - p.speed / fps < -3 →
      Starfield.starStep fps width hueShared fresh p
        = Starfield.starStep fps width hueShared2 fresh2 p) ∧
    (∀ (fl : List Starfield.StarFresh) (ps : List Starfield.Star),
      Starfield.starfieldStep fps width hueShared fl ps
        = List.zipWith (Starfield.starStep fps width hueShared) fl ps) := by
  have noWrap : ∀ (fr : Starfield.StarFresh) (hs : ℚ),
      ¬ p.x - p.speed / fps < -3 →
      Starfield.starStep fps width hs fr p
        = { p with x := p.x - p.speed / fps } := by
    intro fr hs hnw
    simp [Starfield.starStep, hnw]
  refine ⟨noWrap fresh hueShared, ?_, ?_, fun fl ps => rfl⟩
  · intro hw
    have hres : Starfield.starStep fps width hueShared fresh p
        = { x := width + fresh.dx, y := fresh.y, depth := fresh.depth,
            speed := 60 + 340 * fresh.depth,
            hue := fresh.hue * 0.15 + hueShared * 0.2, sat := fresh.sat,
            val := 0.4 + 0.6 * fresh.depth, size := fresh.size } := by
      simp [Starfield.starStep, hw]
    rw [hres]
    refine ⟨rfl, by dsimp only; linarith, rfl, rfl, rfl, rfl, rfl, rfl, rfl⟩
  · intro fresh2 hueShared2 hnw
    rw [noWrap fresh hueShared hnw, noWrap fresh2 hueShared2 hnw]

/-- Witness for C9: a particle at `x = -10` with `speed = 300` at
`fps = 30` wraps (`x` integrates to `-20 < -3`) and respawns at
`width + 2 = 1922`; the oracle draw `dx = 2` is nonnegative. -/
theorem claim9_starfield_step_witness :
    (Starfield.starStep 30 1920 (1 / 2)
        { dx := 2, y := 77, depth := 1 / 4, hue := 1 / 8, sat := 0, size := 2 }
        { x := -10, y := 5, depth := 1, speed := 300, hue := 0, sat := 1,
          val := 1, size := 1 }).x = 1920 + 2 ∧
    (Starfield.starStep 30 1920 (1 / 2)
        { dx := 2, y := 77, depth := 1 / 4, hue := 1 / 8, sat := 0, size := 2 }
        { x := -10, y := 5, depth := 1, speed := 300, hue := 0, sat := 1,
          val := 1, size := 1 }).speed = 60 + 340 * (1 / 4) := by
  obtain ⟨e1, _, _, e4, _⟩ :=
    (claim9_starfield_step 30 1920 (1 / 2)
        { dx := 2, y := 77, depth := 1 / 4, hue := 1 / 8, sat := 0, size := 2 }
        { x := -10, y := 5, depth := 1, speed := 300, hue := 0, sat := 1,
          val := 1, size := 1 } (by norm_num) (by norm_num)).2.1 (by norm_num)
  exact ⟨e1, e4⟩

/-! ## Color model lemmas -/

theorem clampTrunc255_one : clampTrunc255 1 = 255 := by
  norm_num [clampTrunc255]
  rfl

theorem clampTrunc255_zero : clampTrunc255 0 = 0 := by
  norm_num [clampTrunc255]

theorem hsv_select_red : AbstractFlow.hsv_to_rgb 0 1 1 = (1, 0, 0) := by
  norm_num [AbstractFlow.hsv_to_rgb]

theorem hsv_select_green : AbstractFlow.hsv_to_rgb (1 / 3) 1 1 = (0, 1, 0) := by
  norm_num [AbstractFlow.hsv_to_rgb]
  exact ⟨rfl, rfl, rfl⟩

theorem spiral_hsv_scaled (h s v : ℚ) :
    SpiralBlackHole.hsv_to_rgb h s v
      = (clampTrunc255 (AbstractFlow.hsv_to_rgb h s v).1,
         clampTrunc255 (AbstractFlow.hsv_to_rgb h s v).2.1,
         clampTrunc255 (AbstractFlow.hsv_to_rgb h s v).2.2) := rfl

/-! ## Claim C4 -/

/-- Counterexample to claim C4: `hsv_to_rgb` of abstract_flow.py (one of
the two cited implementations) does not scale to [0, 255]: at
`(h, s, v) = (0, 1, 1)` it returns the raw selection `(1, 0, 0)`, not
`(255, 0, 0)`. -/
theorem claim4_unscaled_hsv_cex :
    AbstractFlow.hsv_to_rgb 0 1 1 = (1, 0, 0) ∧
    AbstractFlow.hsv_to_rgb 0 1 1 ≠ ((255 : ℚ), 0, 0) := by
  refine ⟨hsv_select_red, ?_⟩
  rw [hsv_select_red]
  intro hcontra
  rw [Prod.mk.injEq] at hcontra
  norm_num at hcontra

/-- Claim C4 as amended: spiral_black_hole.py's `hsv_to_rgb` implements
the six-sector conversion of the spec — sector tables, then scale to
[0, 255], clamp, truncate — and meets the test vectors exactly:
`(0,1,1) ↦ (255,0,0)` and `(1/3,1,1) ↦ (0,255,0)`.  The
abstract_flow.py/starfield.py `hsv_to_rgb` performs only the sector
selection, returning values in [0, 1] (`(0,1,1) ↦ (1,0,0)`); its callers
apply the 255 scaling and clamping separately. -/
theorem claim4_hsv_amended :
    (∀ h s v : ℚ, SpiralBlackHole.hsv_to_rgb h s v = hsvSixSectorSpec h s v) ∧
    SpiralBlackHole.hsv_to_rgb 0 1 1 = (255, 0, 0) ∧
    SpiralBlackHole.hsv_to_rgb (1 / 3) 1 1 = (0, 255, 0) ∧
    AbstractFlow.hsv_to_rgb 0 1 1 = (1, 0, 0) ∧
    AbstractFlow.hsv_to_rgb (1 / 3) 1 1 = (0, 1, 0) := by
  refine ⟨fun h s v => rfl, ?_, ?_, hsv_select_red, hsv_select_green⟩
  · rw [spiral_hsv_scaled, hsv_select_red]
    simp only
    rw [clampTrunc255_one, clampTrunc255_zero]
  · rw [spiral_hsv_scaled, hsv_select_green]
    simp only
    rw [clampTrunc255_one, clampTrunc255_zero]

/-! ## Sample-policy lemmas -/

theorem frameSample_eq_mod (acc : ℕ) :
    GradientCycle.frameSample acc = acc % 256 := by
  have h := Nat.and_pow_two_sub_one_eq_mod acc 8
  norm_num at h
  simpa [GradientCycle.frameSample] using h

theorem accumAfter_foldl (contribs : List ℕ) :
    ∀ acc : ℕ, contribs.foldl GradientCycle.accumStep (acc % 65536)
      = (acc + contribs.sum) % 65536 := by
  induction contribs with
  | nil => intro acc; simp
  | cons c cs ih =>
    intro acc
    simp only [List.foldl_cons, GradientCycle.accumStep, List.sum_cons,
      Nat.mod_add_mod]
    rw [ih (acc + c), Nat.add_assoc]

theorem accumAfter_eq_sum_mod (contribs : List ℕ) :
    GradientCycle.accumAfter contribs = contribs.sum % 65536 := by
  have h := accumAfter_foldl contribs 0
  simpa [GradientCycle.accumAfter] using h

theorem abstract_frameSample_clamp (accum : ℚ) :
    AbstractFlow.frameSample accum = clampTrunc255 (accum / 765) := by
  unfold AbstractFlow.frameSample clampTrunc255
  have h : accum / 765 * 255 = accum / 3 := by ring
  rw [h]

theorem abstract_frameSample_le (accum : ℚ) :
    AbstractFlow.frameSample accum ≤ 255 := by
  unfold AbstractFlow.frameSample
  have h1 : min (max (accum / 3) 0) 255 ≤ (255 : ℚ) := min_le_right _ _
  have h2 : ⌊min (max (accum / 3) 0) 255⌋ ≤ ⌊(255 : ℚ)⌋ := Int.floor_le_floor h1
  have h3 : ⌊(255 : ℚ)⌋ = 255 := by norm_num
  omega

/-! ## Claim C5 -/

/-- Claim C5: the final 8-bit sample policy is per-variant and exact.  In
the additive-gradient variant every emitted channel sample is the running
accumulator reduced modulo 256, which equals the plain sum of the
per-segment gradient contributions modulo 256 (wraparound through the
uint16 accumulator, never clamping — contributions summing to 300 emit
44).  In the shader-style variants every emitted sample is the float
scaled by 255, clamped to [0, 255] and truncated: spiral's `hsv_to_rgb`
applies exactly `clampTrunc255` to each selected channel, and
abstract_flow's frame emission is `clampTrunc255` of the mean layer value
(in particular never exceeding 255).  The two policies disagree (255 vs 44
at the same overflowed magnitude), so they are not unified. -/
theorem claim5_sample_policy :
    (∀ contribs : List ℕ,
      GradientCycle.frameSample (GradientCycle.accumAfter contribs)
        = contribs.sum % 256) ∧
    GradientCycle.frameSample (GradientCycle.accumAfter [200, 100]) = 44 ∧
    (∀ h s v : ℚ, SpiralBlackHole.hsv_to_rgb h s v
        = (clampTrunc255 (AbstractFlow.hsv_to_rgb h s v).1,
           clampTrunc255 (AbstractFlow.hsv_to_rgb h s v).2.1,
           clampTrunc255 (AbstractFlow.hsv_to_rgb h s v).2.2)) ∧
    (∀ accum : ℚ, AbstractFlow.frameSample accum = clampTrunc255 (accum / 765)) ∧
    (∀ accum : ℚ, AbstractFlow.frameSample accum ≤ 255) ∧
    clampTrunc255 (300 / 255) = 255 ∧
    GradientCycle.frameSample 300 = 44 := by
  have hsum : ∀ contribs : List ℕ,
      GradientCycle.frameSample (GradientCycle.accumAfter contribs)
        = contribs.sum % 256 := by
    intro contribs
    rw [accumAfter_eq_sum_mod, frameSample_eq_mod,
      Nat.mod_mod_of_dvd _ (by norm_num : (256 : ℕ) ∣ 65536)]
  refine ⟨hsum, ?_, spiral_hsv_scaled, abstract_frameSample_clamp,
    abstract_frameSample_le, ?_, by decide⟩
  · rw [hsum]
    decide
  · norm_num [clampTrunc255]
    rfl

/-! ## Wire-format lemmas -/

theorem length_flatMap_const {α : Type} (B : ℕ) (f : ℕ → List α) :
    ∀ l : List ℕ, (∀ m ∈ l, (f m).length = B) →
      (l.flatMap f).length = l.length * B := by
  intro l
  induction l with
  | nil => intro _; simp
  | cons a l ih =>
    intro hB
    simp only [List.flatMap_cons, List.length_append, List.length_cons]
    rw [hB a (by simp), ih (fun m hm => hB m (by simp [hm]))]
    ring

theorem getElem?_flatMap_const {α : Type} (B : ℕ) (f : ℕ → List α) :
    ∀ (l : List ℕ) (i j : ℕ), (∀ m ∈ l, (f m).length = B) → j < B →
      i < l.length → (l.flatMap f)[B * i + j]? = (f (l.getD i 0))[j]? := by
  intro l
  induction l with
  | nil => intro i j _ _ hi; simp at hi
  | cons a l ih =>
    intro i j hB hj hi
    simp only [List.flatMap_cons]
    cases i with
    | zero =>
      rw [Nat.mul_zero, Nat.zero_add,
        List.getElem?_append_left (by rw [hB a (by simp)]; exact hj)]
      rfl
    | succ i' =>
      have hBlen : (f a).length = B := hB a (by simp)
      have hmul : B * (i' + 1) = B * i' + B := by ring
      rw [List.getElem?_append_right (by omega), hBlen]
      have harith : B * (i' + 1) + j - B = B * i' + j := by omega
      rw [harith,
        ih i' j (fun m hm => hB m (by simp [hm])) hj (by simpa using hi)]
      rfl

theorem pixelBytes_length (px : ℕ × ℕ × ℕ) : (pixelBytes px).length = 3 := rfl

theorem pixelBytes_getElem (px : ℕ × ℕ × ℕ) (ch : ℕ) (hch : ch < 3) :
    (pixelBytes px)[ch]? = some (channelSample px ch) := by
  interval_cases ch <;> rfl

theorem rowBytes_length (w : ℕ) (row : ℕ → ℕ × ℕ × ℕ) :
    (rowBytes w row).length = w * 3 := by
  unfold rowBytes
  rw [length_flatMap_const 3 (fun c => pixelBytes (row c)) (List.range w)
    (fun m _ => pixelBytes_length (row m)), List.length_range]

theorem rowBytes_getElem (w : ℕ) (row : ℕ → ℕ × ℕ × ℕ) (c ch : ℕ)
    (hc : c < w) (hch : ch < 3) :
    (rowBytes w row)[3 * c + ch]? = some (channelSample (row c) ch) := by
  unfold rowBytes
  rw [getElem?_flatMap_const 3 (fun c => pixelBytes (row c)) (List.range w)
    c ch (fun m _ => pixelBytes_length (row m)) hch (by simpa using hc)]
  rw [List.getD_eq_getElem?_getD, List.getElem?_range hc]
  exact pixelBytes_getElem (row c) ch hch

theorem frameBytes_length (h w : ℕ) (buf : ℕ → ℕ → ℕ × ℕ × ℕ) :
    (frameBytes h w buf).length = h * w * 3 := by
  unfold frameBytes
  rw [length_flatMap_const (w * 3) _ (List.range h)
    (fun m _ => rowBytes_length w (buf m)), List.length_range, Nat.mul_assoc]

theorem frameBytes_getElem (h w : ℕ) (buf : ℕ → ℕ → ℕ × ℕ × ℕ)
    (r c ch : ℕ) (hr : r < h) (hc : c < w) (hch : ch < 3) :
    (frameBytes h w buf)[(r * w + c) * 3 + ch]?
      = some (channelSample (buf r c) ch) := by
  unfold frameBytes
  have harith : (r * w + c) * 3 + ch = w * 3 * r + (3 * c + ch) := by ring
  rw [harith,
    getElem?_flatMap_const (w * 3) _ (List.range h) r (3 * c + ch)
      (fun m _ => rowBytes_length w (buf m)) (by omega) (by simpa using hr)]
  rw [List.getD_eq_getElem?_getD, List.getElem?_range hr]
  exact rowBytes_getElem w (buf r) c ch hc hch

theorem runWrites_mem (dup target : ℕ) (frameOf : ℕ → List ℕ) :
    ∀ b ∈ runWrites dup target frameOf, ∃ k, b = frameOf k := by
  intro b hb
  unfold runWrites at hb
  rcases List.mem_flatMap.mp hb with ⟨p, _, hbp⟩
  exact ⟨p.1, List.eq_of_mem_replicate hbp⟩

/-! ## Claim C8 -/

/-- Claim C8: each write to the encoder stdin pushes exactly
`width*height*3` bytes — the dense `(height, width, 3)` raster serialised
row-major, channels in R, G, B order, no padding or header, so the byte at
flat offset `(r*width + c)*3 + ch` is channel `ch` of pixel `(r, c)` —
and within one logical step the `repeat` duplicated writes are copies of
the single computed serialisation: every buffer a run ever writes is the
frame of some logical index, computed once. -/
theorem claim8_wire_contract (h w : ℕ) (buf : ℕ → ℕ → ℕ × ℕ × ℕ)
    (r c ch : ℕ) (hr : r < h) (hc : c < w) (hch : ch < 3) :
    (frameBytes h w buf).length = h * w * 3 ∧
    (frameBytes h w buf)[(r * w + c) * 3 + ch]?
        = some (channelSample (buf r c) ch) ∧
    (∀ (rep : ℕ) (frame : List ℕ), (stepWrites rep frame).length = rep) ∧
    (∀ (rep : ℕ) (frame b : List ℕ), b ∈ stepWrites rep frame → b = frame) ∧
    (∀ (dup target : ℕ) (frameOf : ℕ → List ℕ),
      ∀ b ∈ runWrites dup target frameOf, ∃ k, b = frameOf k) := by
  refine ⟨frameBytes_length h w buf, frameBytes_getElem h w buf r c ch hr hc hch,
    fun rep frame => List.length_replicate rep frame, ?_,
    fun dup target frameOf => runWrites_mem dup target frameOf⟩
  intro rep frame b hb
  exact List.eq_of_mem_replicate hb

/-- Witness for C8 on a concrete 2x2 buffer, probing the byte at
row 1, column 1, channel 2. -/
theorem claim8_wire_contract_witness :
    (frameBytes 2 2 (fun i j => (i, j, 7))).length = 2 * 2 * 3 ∧
    (frameBytes 2 2 (fun i j => (i, j, 7)))[(1 * 2 + 1) * 3 + 2]?
      = some (channelSample (1, 1, 7) 2) := by
  obtain ⟨e1, e2, _⟩ :=
    claim8_wire_contract 2 2 (fun i j => (i, j, 7)) 1 1 2
      (by decide) (by decide) (by decide)
  exact ⟨e1, e2⟩
